import Mathlib

/-!
Formal models of the core of the CSDL_alpha computation-graph library, together
with theorems checking its specification against the implementation.

Each definition is a shallow embedding of a function or code fragment of the
Python source (file and symbol named in the doc comment).  Numeric values are
modelled by `ℚ` (exact rational arithmetic stands in for float64 where every
number appearing in a concrete scenario is exactly representable), variables and
graph nodes by explicit inductive structures, and fallible code by `Except`.
-/

/-! ## Graph and Recorder substrate (recorder.py) -/

/-- A graph node: `Variable`s (and their `Constant` subclass) and `Operation`s,
abstracted to the identity and class flags the recorder's checks branch on. -/
structure Node where
  id : ℕ
  isVariable : Bool
  isConstant : Bool
deriving DecidableEq

/-- The per-graph state touched by `Recorder._add_edge`: the node table, the
`add_missing_variables` flag set for loop/solve bodies, the boundary-input set
and the edge list. -/
structure Graph where
  nodeTable : List Node
  addMissingVariables : Bool
  inputs : List Node
  edges : List (Node × Node)
deriving DecidableEq

/-- Modelled from the spec: `Graph.add_node` (graph.py is not under src/):
"registers n, no-op if already present". -/
def Graph.add_node (g : Graph) (n : Node) : Graph :=
  if n ∈ g.nodeTable then g else { g with nodeTable := g.nodeTable ++ [n] }

/-- `Recorder._add_edge` (recorder.py lines 144-165): if the from-endpoint is
missing it is either auto-admitted (graphs with `add_missing_variables`, and
only for `Variable`s, which also records it as a boundary input) or the call
fails; a missing to-endpoint always fails; otherwise the edge is appended. -/
def Recorder.add_edge (g : Graph) (node_from node_to : Node) : Except String Graph :=
  if node_from ∈ g.nodeTable then
    if node_to ∈ g.nodeTable then
      Except.ok { g with edges := g.edges ++ [(node_from, node_to)] }
    else
      Except.error "Node not in graph"
  else
    if g.addMissingVariables && node_from.isVariable then
      let g1 := g.add_node node_from
      let g2 := { g1 with inputs := g1.inputs ++ [node_from] }
      if node_to ∈ g2.nodeTable then
        Except.ok { g2 with edges := g2.edges ++ [(node_from, node_to)] }
      else
        Except.error "Node not in graph"
    else
      Except.error "Node not in graph"

/-! ## Elementwise multiply (operations/mult.py) -/

/-- `Mult.compute_inline` (mult.py line 9): `x*y`, one scalar element of the
elementwise operation. -/
def Mult.compute_inline (x y : ℚ) : ℚ := x * y

/-- `Mult.evaluate_jacobian` (mult.py line 12): returns `(y, x)`, the partial
derivatives of `x*y` with respect to `x` and `y` in input order. -/
def Mult.evaluate_jacobian (x y : ℚ) : ℚ × ℚ := (y, x)

/-- `Mult.evaluate_jvp` (mult.py line 15): `y*vx + x*vy`. -/
def Mult.evaluate_jvp (x y vx vy : ℚ) : ℚ := y * vx + x * vy

/-- `Mult.evaluate_vjp` (mult.py line 18): returns `(x*vout, y*vout)` — the
cotangent reported for the first input is `x*vout` and for the second input
`y*vout`, exactly as written in the source. -/
def Mult.evaluate_vjp (x y vout : ℚ) : ℚ × ℚ := (x * vout, y * vout)

/-- `Log.evaluate_vjp` (log.py line 26) specialised to natural log of the first
argument only in shape: it returns the cotangents in input order, each equal to
the corresponding entry of `Log.evaluate_jacobian` times `vout` — witnessing the
convention the operation contract uses for `evaluate_vjp` return order. -/
def Log.evaluate_vjp_convention (jac_x jac_y vout : ℚ) : ℚ × ℚ :=
  (jac_x * vout, jac_y * vout)

/-! ## Loop node sequential interpretation (operations/loops/loop.py) -/

/-- One iteration of the `for i in range(self.length)` body of
`Loop.compute_inline` (loop.py lines 117-135), for a loop whose feedback values
are gathered in a state of type `σ`: the current feedback value is written into
the stacked output at the current index (unless `inline_lazy_stack` suppresses
stacking), the body graph is executed (`exec v fb` returns the feedback
`body_output` values and the remaining pass-through outputs), and the feedback
variable is overwritten with the body output for the next iteration. -/
def Loop.computeInlineStep {ι σ α : Type} (exec : ι → σ → σ × α)
    (inline_lazy_stack : Bool) (st : σ × List σ × Option α) (v : ι) :
    σ × List σ × Option α :=
  let fb := st.1
  let stk := if inline_lazy_stack then st.2.1 else st.2.1 ++ [fb]
  let r := exec v fb
  (r.1, stk, some r.2)

/-- `Loop.compute_inline` (loop.py lines 100-142) for a non-derivative loop:
fold the per-iteration step over the iteration-variable values, starting from
the feedback seeded with `external_initial` (the `i == 0` branch of the source
assigns `loop_var[0].value = loop_var[1].value`). Returns the final feedback
value, the stacked history and the last pass-through outputs. -/
def Loop.compute_inline {ι σ α : Type} (exec : ι → σ → σ × α)
    (inline_lazy_stack : Bool) (vals : List ι) (external_initial : σ) :
    σ × List σ × Option α :=
  vals.foldl (Loop.computeInlineStep exec inline_lazy_stack) (external_initial, [], none)

/-- Sequence of feedback values entering each iteration, as the spec describes
them: `b₀ = external_initial`, `bᵢ₊₁ = body(bᵢ)`. -/
def Loop.seqStates {ι σ α : Type} (exec : ι → σ → σ × α) : σ → List ι → List σ
  | _, [] => []
  | fb, v :: rest => fb :: Loop.seqStates exec (exec v fb).1 rest

/-- Final feedback value after all iterations, per the spec's sequential
recurrence. -/
def Loop.seqFinal {ι σ α : Type} (exec : ι → σ → σ × α) : σ → List ι → σ
  | fb, [] => fb
  | fb, v :: rest => Loop.seqFinal exec (exec v fb).1 rest

/-- Pass-through outputs of the last executed iteration, per the spec's
sequential recurrence (`none` when there are no iterations). -/
def Loop.seqLast {ι σ α : Type} (exec : ι → σ → σ × α) : σ → List ι → Option α
  | _, [] => none
  | fb, [v] => some (exec v fb).2
  | fb, v :: w :: rest => Loop.seqLast exec (exec v fb).1 (w :: rest)

/-- The canonical feedback regression scenario executed at host level: eleven
iterations of `b ← (b + c[i]) * 2` from `b = 0` with `c[i] = 1`.  Every value is
a small integer, exactly representable in float64, so `ℤ` models the host
float64 loop exactly. -/
def hostLoopFeedback : ℤ := (List.range 11).foldl (fun b _ => (b + 1) * 2) 0

/-- The body of the same scenario as the traced loop body executes it in one
iteration: the feedback input `b` and the per-iteration constant `c[i] = 1`
produce body output `(b + 1) * 2`; there are no further pass-through outputs. -/
def feedbackScenarioBody : ℕ → ℤ → ℤ × Unit := fun _ b => ((b + 1) * 2, ())

/-- The intermediate-value snapshot/restore wrapper a derivative Loop's
`compute_inline` performs (loop.py lines 102-107 and 138-140, and
`add_compute_inline_reset`, lines 850-865): the values of every Variable in the
parent Loop's subgraph (`parentVars`, over a value store `store`) are saved,
the inline replay `run` executes, and the saved values are written back. -/
def Loop.compute_inline_reset {V : Type} [DecidableEq V] (parentVars : List V)
    (run : (V → ℚ) → (V → ℚ)) (store : V → ℚ) : V → ℚ :=
  let old_var_values := store
  let s := run store
  fun v => if v ∈ parentVars then old_var_values v else s v

/-! ## Loop tracer checks and finalization (operations/loops/loop.py, frange) -/

/-- The structural data the two tracing passes record: input/output discovery
lists (variable ids, in discovery order) and the operation-type and shape
sequences (`get_ops_and_shapes`); operation types are numeric codes. -/
structure TraceData where
  iter1_inputs : List ℕ
  iter2_inputs : List ℕ
  iter1_outputs : List ℕ
  iter2_outputs : List ℕ
  ops1 : List ℕ
  ops2 : List ℕ
  shapes1 : List (List ℕ)
  shapes2 : List (List ℕ)
deriving DecidableEq

/-- The validation performed by `frange.post_iteration_two` (loop.py lines
675-678) before any feedback pairing: it raises exactly when the number of
discovered inputs or outputs differs between the two passes.  No other field of
the trace is consulted — in particular the recorded operation-type and shape
sequences are not compared here. -/
def frange.post_iteration_two_check (t : TraceData) : Except String Unit :=
  if t.iter1_inputs.length ≠ t.iter2_inputs.length then
    Except.error "Number of loop inputs changed between iterations"
  else if t.iter1_outputs.length ≠ t.iter2_outputs.length then
    Except.error "Number of loop outputs changed between iterations"
  else
    Except.ok ()

/-- `frange._check_ops_and_shapes` (loop.py lines 796-800).  This method is
defined in the source but has no call site anywhere under src/ (and the
`self.ops` / `self.shapes` fields it reads are never assigned), so the check it
expresses never runs during tracing. -/
def frange.check_ops_and_shapes (saved_ops ops : List ℕ)
    (saved_shapes shapes : List (List ℕ)) : Except String Unit :=
  if ops ≠ saved_ops then
    Except.error "Operations changed between iterations"
  else if shapes ≠ saved_shapes then
    Except.error "Shapes changed between iterations"
  else
    Except.ok ()

/-- One feedback triple discovered by the tracer:
`(body_input, external_initial, body_output)`. -/
structure LoopVarTriple where
  body_input : Node
  external_initial : Node
  body_output : Node
deriving DecidableEq

/-- The constant-initial registration loop of `frange.post_iteration_two`
(loop.py lines 724-730), running after `_exit_subgraph()` so the active graph
is the parent: every feedback triple whose `external_initial` is a `Constant`
is appended to the loop's external-input list and `add_node`d into the parent
graph.  Returns the updated external-input list and parent graph.  This is the
body of that loop for one triple. -/
def frange.register_step (acc : List Node × Graph) (lv : LoopVarTriple) : List Node × Graph :=
  if lv.external_initial.isConstant then
    (acc.1 ++ [lv.external_initial], acc.2.add_node lv.external_initial)
  else acc

/-- The full constant-initial registration loop (see `frange.register_step`). -/
def frange.register_constant_initials (external_inputs : List Node) (parent : Graph)
    (loop_vars : List LoopVarTriple) : List Node × Graph :=
  loop_vars.foldl frange.register_step (external_inputs, parent)

/-! ## Bracketed search solver
(implicit_operations/nonlinear_solvers/bracketed_search.py) -/

/-- The flattened solver state of `BracketedSearch._inline_solve_`: the lower
and upper bracket vectors over all states' elements (size `n`). -/
structure BracketState (n : ℕ) where
  x_lower : Fin n → ℚ
  x_upper : Fin n → ℚ

/-- The elementwise midpoint `x_mid = (x_upper + x_lower) / 2`
(bracketed_search.py line 156). -/
def BracketedSearch.x_mid {n : ℕ} (s : BracketState n) : Fin n → ℚ :=
  fun i => (s.x_upper i + s.x_lower i) / 2

/-- One pass of the `while True` body of `BracketedSearch._inline_solve_`
(bracketed_search.py lines 154-163): evaluate the residual once at the
elementwise midpoint, then per element move the lower end to the midpoint where
the midpoint residual's sign matches the recorded lower-bound sign
(`lower_mask = (r_update < 0) == r_sign`) and the upper end to the midpoint
elsewhere.  Returns the narrowed brackets and the midpoint residual. -/
def BracketedSearch.step {n : ℕ} (residual : (Fin n → ℚ) → Fin n → ℚ)
    (r_sign : Fin n → Bool) (s : BracketState n) : BracketState n × (Fin n → ℚ) :=
  let m := BracketedSearch.x_mid s
  let r_update := residual m
  let lower_mask : Fin n → Bool := fun i => decide (r_update i < 0) == r_sign i
  (⟨fun i => if lower_mask i then m i else s.x_lower i,
    fun i => if lower_mask i then s.x_upper i else m i⟩, r_update)

/-- Modelled from the spec: `check_run_time_tolerance` (nonlinear_solver.py is
not under src/): the solve "converges when every element's residual magnitude is
within tolerance"; the in-src jax lowering of the same check
(bracketed_search.py line 261) is `jnp.all(jnp.less_equal(jnp.abs(r_update),
tolerance))`. -/
def check_run_time_tolerance {n : ℕ} (r tol : Fin n → ℚ) : Bool :=
  decide (∀ i, |r i| ≤ tol i)

/-- The `while True` loop of `BracketedSearch._inline_solve_`
(bracketed_search.py lines 154-174): step, break converged if the midpoint
residual meets tolerance, else increment `iter` and break non-converged once
`iter > max_iter`.  `fuel` is the number of further increments allowed, so the
top-level call passes `fuel = max_iter`.  Returns the final brackets, the
`converged` flag and the final `iter` count. -/
def BracketedSearch.solveAux {n : ℕ} (residual : (Fin n → ℚ) → Fin n → ℚ)
    (r_sign : Fin n → Bool) (tol : Fin n → ℚ) :
    ℕ → ℕ → BracketState n → BracketState n × Bool × ℕ
  | fuel, iter, s =>
    let p := BracketedSearch.step residual r_sign s
    if check_run_time_tolerance p.2 tol then (p.1, true, iter)
    else
      match fuel with
      | 0 => (p.1, false, iter + 1)
      | fuel' + 1 => BracketedSearch.solveAux residual r_sign tol fuel' (iter + 1) p.1

/-- `BracketedSearch._inline_solve_` (bracketed_search.py lines 99-177) after
the brackets and tolerances have been flattened into vectors: record the
lower-bound residual signs `r_sign = (r_lower < 0)` (line 151) and run the
bisection loop. -/
def BracketedSearch.inline_solve {n : ℕ} (residual : (Fin n → ℚ) → Fin n → ℚ)
    (tol : Fin n → ℚ) (max_iter : ℕ) (x_lower x_upper : Fin n → ℚ) :
    BracketState n × Bool × ℕ :=
  let r_lower := residual x_lower
  let r_sign : Fin n → Bool := fun i => decide (r_lower i < 0)
  BracketedSearch.solveAux residual r_sign tol max_iter 0 ⟨x_lower, x_upper⟩

/-- `k` bracket-narrowing passes, ignoring the stopping tests: the bracket part
of running the solver for `k` outer iterations. -/
def BracketedSearch.stepN {n : ℕ} (residual : (Fin n → ℚ) → Fin n → ℚ)
    (r_sign : Fin n → Bool) : ℕ → BracketState n → BracketState n
  | 0, s => s
  | k + 1, s => BracketedSearch.stepN residual r_sign k (BracketedSearch.step residual r_sign s).1

/-! ## Gauss–Seidel solver
(implicit_operations/nonlinear_solvers/gauss_seidel.py) -/

/-- The per-state body of `GaussSeidel._inline_update_states`
(gauss_seidel.py lines 100-112): `update_residual()` recomputes every residual
from the current state values (modelled from the spec, nonlinear_solver.py is
not under src/: "recompute all residuals against current state values" — `R x`),
then the state is overwritten with `state − residual`, or with the user's
explicit `state_update` value (also evaluated at the current state values) when
one was declared. -/
def GaussSeidel.visit_state {n : ℕ} (R : (Fin n → ℚ) → Fin n → ℚ)
    (state_update : Fin n → Option ((Fin n → ℚ) → ℚ)) (x : Fin n → ℚ) (k : Fin n) :
    Fin n → ℚ :=
  let r := R x
  match state_update k with
  | none => Function.update x k (x k - r k)
  | some u => Function.update x k (u x)

/-- `GaussSeidel._inline_update_states` (gauss_seidel.py lines 94-112): one
outer iteration, visiting the states in declaration order (the insertion order
of `state_to_residual_map` — indices `0, 1, …, n-1`). -/
def GaussSeidel.inline_update_states {n : ℕ} (R : (Fin n → ℚ) → Fin n → ℚ)
    (state_update : Fin n → Option ((Fin n → ℚ) → ℚ)) (x : Fin n → ℚ) : Fin n → ℚ :=
  (List.finRange n).foldl (GaussSeidel.visit_state R state_update) x

/-- The spec's wording of the per-state visit, stated independently of
`Function.update`: only state `k` changes, to `state − residual` (or the
declared update), with the residual recomputed at the current values. -/
def GaussSeidel.spec_visit {n : ℕ} (R : (Fin n → ℚ) → Fin n → ℚ)
    (state_update : Fin n → Option ((Fin n → ℚ) → ℚ)) (x : Fin n → ℚ) (k : Fin n) :
    Fin n → ℚ :=
  fun j =>
    if j = k then
      match state_update k with
      | none => x k - R x k
      | some u => u x
    else x j

/-! ## Variable-index get (operations/set_get/getindex.py) -/

/-- A dense array: a shape and its row-major flattened data. -/
structure NDArray where
  shape : List ℕ
  data : List ℚ
deriving DecidableEq

/-- The evaluated value of a `VarSlice` (loop_slice.py is not under src/; the
evaluated index is modelled as the index forms the claim concerns): either a
prefix of scalar indices (one per leading axis), or an integer-array index
along the first axis.  Its numpy result shape depends only on the structure and
lengths, not the index values, which is why `evaluate_zeros` computes the same
shape as `evaluate`. -/
inductive VarIndex where
  | scalars (idx : List ℕ)
  | fancy (rows : List ℕ)
deriving DecidableEq

/-- Models numpy: the shape of `np.zeros(s)[index]` for the two index forms. -/
def npIndexShape (s : List ℕ) : VarIndex → List ℕ
  | .scalars idx => s.drop idx.length
  | .fancy rows => rows.length :: s.drop 1

/-- Row-major element offset of the sub-block selected by a prefix of scalar
indices. -/
def elemOffset : List ℕ → List ℕ → ℕ
  | _, [] => 0
  | [], _ :: _ => 0
  | _ :: ds, i :: is => i * ds.prod + elemOffset ds is

/-- Models numpy: the flattened data of `x[index]` for the two index forms. -/
def npIndexData (x : NDArray) : VarIndex → List ℚ
  | .scalars idx =>
      (x.data.drop (elemOffset x.shape idx)).take ((x.shape.drop idx.length).prod)
  | .fancy rows =>
      (rows.map fun r =>
        (x.data.drop (r * (x.shape.drop 1).prod)).take ((x.shape.drop 1).prod)).flatten

/-- Bounds check for an evaluated index against a shape: scalar indices pair
below their axis extents, array indices stay below the first axis extent. -/
def VarIndex.validB : VarIndex → List ℕ → Bool
  | .scalars idx, s =>
      decide (idx.length ≤ s.length) && (idx.zip s).all fun p => decide (p.1 < p.2)
  | .fancy rows, s =>
      decide (s ≠ []) && rows.all fun r => decide (r < s.headD 0)

/-- `get_index` (getindex.py lines 30-52) combined with
`GetVarIndex.compute_inline` (lines 27-28): the output shape is
`np.zeros(x.shape)[slices.evaluate_zeros()].shape`, promoted from `()` to
`(1,)`; the output value is `x[slice]` reshaped to that shape (reshape of
row-major data only relabels the shape). -/
def get_index (x : NDArray) (slices : VarIndex) : NDArray :=
  let shape0 := npIndexShape x.shape slices
  let shape := if shape0 = [] then [1] else shape0
  { shape := shape, data := npIndexData x slices }

/-! ## Theorems -/

/-! ### Helper lemmas -/

theorem seqLast_cons_isSome {ι σ α : Type} (exec : ι → σ → σ × α) :
    ∀ (rest : List ι) (v : ι) (fb : σ), ∃ a, Loop.seqLast exec fb (v :: rest) = some a := by
  intro rest
  induction rest with
  | nil => intro v fb; exact ⟨(exec v fb).2, rfl⟩
  | cons w rs ih =>
      intro v fb
      simpa [Loop.seqLast] using ih w (exec v fb).1

theorem compute_inline_foldl {ι σ α : Type} (exec : ι → σ → σ × α) :
    ∀ (vals : List ι) (fb : σ) (stk : List σ) (p : Option α),
      List.foldl (Loop.computeInlineStep exec false) (fb, stk, p) vals
        = (Loop.seqFinal exec fb vals, stk ++ Loop.seqStates exec fb vals,
           (Loop.seqLast exec fb vals).elim p some) := by
  intro vals
  induction vals with
  | nil =>
      intro fb stk p
      simp [Loop.seqFinal, Loop.seqStates, Loop.seqLast]
  | cons v rest ih =>
      intro fb stk p
      rw [List.foldl_cons]
      have hstep : Loop.computeInlineStep exec false (fb, stk, p) v
          = ((exec v fb).1, stk ++ [fb], some (exec v fb).2) := rfl
      rw [hstep, ih]
      simp only [Prod.mk.injEq]
      refine ⟨rfl, ?_, ?_⟩
      · simp [Loop.seqStates]
      · cases rest with
        | nil => simp [Loop.seqLast]
        | cons w rs =>
            obtain ⟨a, ha⟩ := seqLast_cons_isSome exec rs w (exec v fb).1
            simp [Loop.seqLast, ha]

theorem Graph.mem_add_node_self (g : Graph) (n : Node) : n ∈ (g.add_node n).nodeTable := by
  by_cases h : n ∈ g.nodeTable <;> simp [Graph.add_node, h]

theorem Graph.add_node_mono {g : Graph} {m : Node} (n : Node) (h : m ∈ g.nodeTable) :
    m ∈ (g.add_node n).nodeTable := by
  by_cases hn : n ∈ g.nodeTable <;> simp [Graph.add_node, hn, h]

theorem register_step_mono (acc : List Node × Graph) (lv : LoopVarTriple) (x : Node) :
    (x ∈ acc.1 → x ∈ (frange.register_step acc lv).1)
    ∧ (x ∈ acc.2.nodeTable → x ∈ (frange.register_step acc lv).2.nodeTable) := by
  by_cases h : lv.external_initial.isConstant
  · exact ⟨fun hx => by simp [frange.register_step, h, hx],
      fun hx => by simpa [frange.register_step, h] using Graph.add_node_mono _ hx⟩
  · simp [frange.register_step, h]

theorem register_foldl_mono :
    ∀ (lvs : List LoopVarTriple) (acc : List Node × Graph) (x : Node),
      (x ∈ acc.1 → x ∈ (lvs.foldl frange.register_step acc).1)
      ∧ (x ∈ acc.2.nodeTable → x ∈ (lvs.foldl frange.register_step acc).2.nodeTable) := by
  intro lvs
  induction lvs with
  | nil => intro acc x; simp
  | cons hd tl ih =>
      intro acc x
      refine ⟨fun hx => ?_, fun hx => ?_⟩
      · exact (ih (frange.register_step acc hd) x).1 ((register_step_mono acc hd x).1 hx)
      · exact (ih (frange.register_step acc hd) x).2 ((register_step_mono acc hd x).2 hx)

theorem register_aux :
    ∀ (lvs : List LoopVarTriple) (acc : List Node × Graph) (lv : LoopVarTriple),
      lv ∈ lvs → lv.external_initial.isConstant = true →
      lv.external_initial ∈ (lvs.foldl frange.register_step acc).1
      ∧ lv.external_initial ∈ (lvs.foldl frange.register_step acc).2.nodeTable := by
  intro lvs
  induction lvs with
  | nil => intro acc lv h; exact absurd h (List.not_mem_nil lv)
  | cons hd tl ih =>
      intro acc lv hmem hconst
      rcases List.mem_cons.mp hmem with heq | htl
      · subst heq
        have h1 : lv.external_initial ∈ (frange.register_step acc lv).1 := by
          simp [frange.register_step, hconst]
        have h2 : lv.external_initial ∈ (frange.register_step acc lv).2.nodeTable := by
          simpa [frange.register_step, hconst] using
            Graph.mem_add_node_self acc.2 lv.external_initial
        exact ⟨(register_foldl_mono tl _ _).1 h1, (register_foldl_mono tl _ _).2 h2⟩
      · exact ih (frange.register_step acc hd) lv htl hconst

/-! ### C1: Mult's reverse-mode cotangents versus its local Jacobian -/

/-- C1: local-Jacobian consistency fails for `Mult`.  At `x = 2`, `y = 3`,
`vout = 1` the source's `evaluate_vjp` returns `(x*vout, y*vout) = (2, 3)`,
but the true local Jacobian of `compute_inline` (exact directional difference
`3*dx`, and the class's own `evaluate_jacobian = (3, 2)` and
`evaluate_jvp = 3`) requires the cotangent of the first input to be
`y*vout = 3`; the `Log` operation's `evaluate_vjp` shows the intended
jacobian-times-vout input-order convention. -/
theorem mult_vjp_contradicts_local_jacobian :
    Mult.evaluate_vjp 2 3 1 = (2, 3)
    ∧ Mult.evaluate_jacobian 2 3 = (3, 2)
    ∧ (∀ dx : ℚ, Mult.compute_inline (2 + dx) 3 - Mult.compute_inline 2 3 = 3 * dx)
    ∧ Mult.evaluate_jvp 2 3 1 0 = 3
    ∧ Log.evaluate_vjp_convention (Mult.evaluate_jacobian 2 3).1
        (Mult.evaluate_jacobian 2 3).2 1 = (3, 2)
    ∧ (Mult.evaluate_vjp 2 3 1).1 ≠ (Mult.evaluate_jacobian 2 3).1 * 1 := by
  refine ⟨?_, rfl, fun dx => ?_, ?_, ?_, ?_⟩
  · norm_num [Mult.evaluate_vjp, Prod.ext_iff]
  · simp only [Mult.compute_inline]; ring
  · norm_num [Mult.evaluate_jvp]
  · norm_num [Log.evaluate_vjp_convention, Mult.evaluate_jacobian, Prod.ext_iff]
  · norm_num [Mult.evaluate_vjp, Mult.evaluate_jacobian]

/-! ### C2: sequential loop interpretation -/

/-- C2: `Loop.compute_inline` executes the iterations in order, seeding the
feedback from `external_initial` exactly on the first iteration and from the
previous iteration's body output afterwards, records the feedback value
entering iteration `i` at index `i` of the stacked output before executing the
body, and returns the final feedback value, the full stack and the last
pass-through outputs; on the canonical scenario `b ← (b + c[i]) * 2` over 11
iterations from `b = 0` with `c[i] = 1` it reproduces the host-level loop. -/
theorem loop_sequential_interpretation :
    (∀ (ι σ α : Type) (exec : ι → σ → σ × α) (vals : List ι) (external_initial : σ),
        Loop.compute_inline exec false vals external_initial
          = (Loop.seqFinal exec external_initial vals,
             Loop.seqStates exec external_initial vals,
             Loop.seqLast exec external_initial vals))
    ∧ (Loop.compute_inline feedbackScenarioBody false (List.range 11) 0).1 = hostLoopFeedback := by
  constructor
  · intro ι σ α exec vals init
    rw [Loop.compute_inline, compute_inline_foldl exec vals init [] none]
    cases hL : Loop.seqLast exec init vals <;> simp [hL]
  · decide

/-! ### C3: what the tracer's second pass actually validates -/

/-- C3 counterexample: a trace whose operation-type sequence changed between
the two passes (`[10] ≠ [11]`) but whose input/output counts agree passes
`frange.post_iteration_two`'s validation without an error, even though the
(never-invoked) `_check_ops_and_shapes` would have rejected it. -/
theorem trace_check_accepts_changed_ops :
    frange.post_iteration_two_check ⟨[0], [0], [1], [1], [10], [11], [[1]], [[1]]⟩
      = Except.ok ()
    ∧ ([10] : List ℕ) ≠ [11]
    ∧ frange.check_ops_and_shapes [10] [11] [[1]] [[1]] ≠ Except.ok () := by
  refine ⟨rfl, by decide, ?_⟩
  unfold frange.check_ops_and_shapes
  rw [if_pos (by decide : ([11] : List ℕ) ≠ [10])]
  exact fun h => Except.noConfusion h

/-- C3 amended: the tracer's second-pass validation raises exactly when the
number of discovered inputs or the number of discovered outputs differs
between the two passes; differing operation-type or shape sequences with
matching counts are not rejected (`_check_ops_and_shapes` has no call site). -/
theorem trace_check_detects_count_changes :
    ∀ t : TraceData,
      (∃ e, frange.post_iteration_two_check t = Except.error e)
        ↔ t.iter1_inputs.length ≠ t.iter2_inputs.length
          ∨ t.iter1_outputs.length ≠ t.iter2_outputs.length := by
  intro t
  unfold frange.post_iteration_two_check
  by_cases h1 : t.iter1_inputs.length ≠ t.iter2_inputs.length
  · simp [h1]
  · by_cases h2 : t.iter1_outputs.length ≠ t.iter2_outputs.length
    · simp [h1, h2]
    · simp [h1, h2]

/-- C3 witness for the amended theorem: an input-count mismatch (one input in
the first pass, none in the second) is reported as an error. -/
theorem trace_check_detects_count_changes_w :
    ∃ e, frange.post_iteration_two_check ⟨[0], [], [1], [1], [], [], [], []⟩
      = Except.error e :=
  (trace_check_detects_count_changes ⟨[0], [], [1], [1], [], [], [], []⟩).mpr
    (Or.inl (by decide))

/-! ### C7: `Recorder._add_edge` endpoint checks -/

/-- C7 counterexample: on a graph marked `add_missing_variables` (a loop/solve
body), `_add_edge` with an unregistered Variable as from-endpoint does not
fail: it silently registers the endpoint, records it as a boundary input and
adds the edge. -/
theorem add_edge_silently_admits_variable :
    Recorder.add_edge ⟨[⟨1, false, false⟩], true, [], []⟩ ⟨0, true, false⟩ ⟨1, false, false⟩
      = Except.ok ⟨[⟨1, false, false⟩, ⟨0, true, false⟩], true, [⟨0, true, false⟩],
          [(⟨0, true, false⟩, ⟨1, false, false⟩)]⟩
    ∧ (⟨0, true, false⟩ : Node) ∉ ([⟨1, false, false⟩] : List Node) := by
  exact ⟨rfl, by decide⟩

/-- C7 amended: `_add_edge` fails when the to-endpoint is unregistered, and
when the from-endpoint is unregistered on a graph that does not auto-admit
missing Variables (or the from-endpoint is not a Variable); on an auto-admit
graph an unregistered Variable from-endpoint is instead silently registered
and recorded as a boundary input before the edge is added. -/
theorem add_edge_registration_conditions :
    ∀ (g : Graph) (nf nt : Node),
      (nf ∈ g.nodeTable → nt ∈ g.nodeTable →
        ∃ g2, Recorder.add_edge g nf nt = Except.ok g2)
      ∧ (nf ∈ g.nodeTable → nt ∉ g.nodeTable →
        ∃ e, Recorder.add_edge g nf nt = Except.error e)
      ∧ (nf ∉ g.nodeTable → ¬(g.addMissingVariables = true ∧ nf.isVariable = true) →
        ∃ e, Recorder.add_edge g nf nt = Except.error e)
      ∧ (nf ∉ g.nodeTable → g.addMissingVariables = true → nf.isVariable = true →
        nt ∈ g.nodeTable →
        ∃ g2, Recorder.add_edge g nf nt = Except.ok g2
          ∧ nf ∈ g2.nodeTable ∧ nf ∈ g2.inputs) := by
  intro g nf nt
  refine ⟨fun h1 h2 => ?_, fun h1 h2 => ?_, fun h1 h2 => ?_, fun h1 hm hv h2 => ?_⟩
  · exact ⟨{ g with edges := g.edges ++ [(nf, nt)] }, by simp [Recorder.add_edge, h1, h2]⟩
  · exact ⟨"Node not in graph", by simp [Recorder.add_edge, h1, h2]⟩
  · have hb : (g.addMissingVariables && nf.isVariable) = false := by
      cases hA : g.addMissingVariables <;> cases hV : nf.isVariable <;> simp_all
    exact ⟨"Node not in graph", by simp [Recorder.add_edge, h1, hb]⟩
  · refine ⟨{ nodeTable := g.nodeTable ++ [nf], addMissingVariables := g.addMissingVariables, inputs := g.inputs ++ [nf], edges := g.edges ++ [(nf, nt)] }, ?_, ?_, ?_⟩
    · simp [Recorder.add_edge, Graph.add_node, h1, hm, hv, h2]
    · simp
    · simp

/-- C7 witness for the amended theorem: on a graph that does not auto-admit
missing Variables, an edge from an unregistered node fails. -/
theorem add_edge_registration_conditions_w :
    ∃ e, Recorder.add_edge ⟨[], false, [], []⟩ ⟨0, true, false⟩ ⟨1, false, false⟩
      = Except.error e :=
  (add_edge_registration_conditions ⟨[], false, [], []⟩ ⟨0, true, false⟩
    ⟨1, false, false⟩).2.2.1 (by decide) (by simp)

/-! ### C8: derivative loops restore the parent loop's values -/

/-- C8: a derivative Loop's inline execution restores the snapshotted value of
every Variable of the parent Loop's subgraph, and the parent link affects
nothing else: values outside the parent subgraph are exactly those produced by
the replay. -/
theorem derivative_loop_preserves_parent_values :
    ∀ (V : Type) [_inst : DecidableEq V] (parentVars : List V)
      (run : (V → ℚ) → (V → ℚ)) (store : V → ℚ) (v : V),
      (v ∈ parentVars → Loop.compute_inline_reset parentVars run store v = store v)
      ∧ (v ∉ parentVars → Loop.compute_inline_reset parentVars run store v = run store v) := by
  intro V _ parentVars run store v
  constructor <;> intro h <;> simp [Loop.compute_inline_reset, h]

/-- C8 witness: concrete instance — inline replay adds 1 to every value, yet
the parent-subgraph variable `0` keeps its value `5`. -/
theorem derivative_loop_preserves_parent_values_w :
    Loop.compute_inline_reset [0] (fun s n => s n + 1) (fun _ : ℕ => (5 : ℚ)) 0 = 5 :=
  (derivative_loop_preserves_parent_values ℕ [0] (fun s n => s n + 1)
    (fun _ => (5 : ℚ)) 0).1 (by decide)

/-! ### C9: constant feedback initials are registered into the parent graph -/

/-- C9: after loop finalization, every feedback triple whose `external_initial`
is a `Constant` has that constant appended to the loop's external-input list
and registered as a node of the parent graph. -/
theorem constant_initial_added_to_parent_graph :
    ∀ (external_inputs : List Node) (parent : Graph) (loop_vars : List LoopVarTriple)
      (lv : LoopVarTriple),
      lv ∈ loop_vars → lv.external_initial.isConstant = true →
      lv.external_initial
        ∈ (frange.register_constant_initials external_inputs parent loop_vars).1
      ∧ lv.external_initial
        ∈ (frange.register_constant_initials external_inputs parent loop_vars).2.nodeTable := by
  intro external_inputs parent loop_vars lv hmem hconst
  exact register_aux loop_vars (external_inputs, parent) lv hmem hconst

/-- C9 witness: a single feedback triple whose initial is the constant node
`⟨0, true, true⟩`, finalized against an empty parent graph. -/
theorem constant_initial_added_to_parent_graph_w :
    (⟨0, true, true⟩ : Node)
      ∈ (frange.register_constant_initials [] ⟨[], false, [], []⟩
          [⟨⟨2, true, false⟩, ⟨0, true, true⟩, ⟨3, true, false⟩⟩]).1
    ∧ (⟨0, true, true⟩ : Node)
      ∈ (frange.register_constant_initials [] ⟨[], false, [], []⟩
          [⟨⟨2, true, false⟩, ⟨0, true, true⟩, ⟨3, true, false⟩⟩]).2.nodeTable :=
  constant_initial_added_to_parent_graph [] ⟨[], false, [], []⟩
    [⟨⟨2, true, false⟩, ⟨0, true, true⟩, ⟨3, true, false⟩⟩]
    ⟨⟨2, true, false⟩, ⟨0, true, true⟩, ⟨3, true, false⟩⟩ (by decide) rfl

/-! ### C4: bracketed bisection -/

theorem step_snd {n : ℕ} (residual : (Fin n → ℚ) → Fin n → ℚ) (r_sign : Fin n → Bool)
    (s : BracketState n) :
    (BracketedSearch.step residual r_sign s).2 = residual (BracketedSearch.x_mid s) := rfl

theorem step_lower {n : ℕ} (residual : (Fin n → ℚ) → Fin n → ℚ) (r_sign : Fin n → Bool)
    (s : BracketState n) (i : Fin n) :
    (BracketedSearch.step residual r_sign s).1.x_lower i
      = if (decide (residual (BracketedSearch.x_mid s) i < 0) == r_sign i)
        then BracketedSearch.x_mid s i else s.x_lower i := rfl

theorem step_upper {n : ℕ} (residual : (Fin n → ℚ) → Fin n → ℚ) (r_sign : Fin n → Bool)
    (s : BracketState n) (i : Fin n) :
    (BracketedSearch.step residual r_sign s).1.x_upper i
      = if (decide (residual (BracketedSearch.x_mid s) i < 0) == r_sign i)
        then s.x_upper i else BracketedSearch.x_mid s i := rfl

theorem step_width {n : ℕ} (residual : (Fin n → ℚ) → Fin n → ℚ) (r_sign : Fin n → Bool)
    (s : BracketState n) (i : Fin n) :
    (BracketedSearch.step residual r_sign s).1.x_upper i
      - (BracketedSearch.step residual r_sign s).1.x_lower i
      = (s.x_upper i - s.x_lower i) / 2 := by
  rw [step_lower, step_upper]
  cases hB : (decide (residual (BracketedSearch.x_mid s) i < 0) == r_sign i) <;>
    simp [BracketedSearch.x_mid] <;> ring

theorem stepN_width {n : ℕ} (residual : (Fin n → ℚ) → Fin n → ℚ) (r_sign : Fin n → Bool) :
    ∀ (k : ℕ) (s : BracketState n) (i : Fin n),
      (BracketedSearch.stepN residual r_sign k s).x_upper i
        - (BracketedSearch.stepN residual r_sign k s).x_lower i
        = (s.x_upper i - s.x_lower i) / 2 ^ k := by
  intro k
  induction k with
  | zero => intro s i; simp [BracketedSearch.stepN]
  | succ k ih =>
      intro s i
      have hstep : BracketedSearch.stepN residual r_sign (k + 1) s
          = BracketedSearch.stepN residual r_sign k (BracketedSearch.step residual r_sign s).1 :=
        rfl
      rw [hstep, ih, step_width, div_div, pow_succ]
      ring_nf

/-- C4 counterexample: the residual `r(x) = 100·x` on the single-state bracket
`[-1, 2]` with tolerance `1/10` satisfies every hypothesis of the claim (the
root `0` lies in the bracket and the endpoint residual signs differ), and
`ceil(log2((hi-lo)/tolerance)) = ceil(log2(30)) = 5` (since `2⁴·(1/10) < 3 ≤
2⁵·(1/10)`), yet running `_inline_solve_` with `max_iter = 4` — which executes
exactly 5 residual-midpoint iterations — ends not converged: the residual
tolerance is not met within the claimed iteration count. -/
theorem bracketed_search_bound_fails :
    ((100 : ℚ) * (-1) < 0)
    ∧ ((0 : ℚ) < 100 * 2)
    ∧ ((100 : ℚ) * 0 = 0 ∧ (-1 : ℚ) ≤ 0 ∧ (0 : ℚ) ≤ 2)
    ∧ ((2 : ℚ) - (-1) ≤ 2 ^ 5 * (1 / 10))
    ∧ ¬((2 : ℚ) - (-1) ≤ 2 ^ 4 * (1 / 10))
    ∧ (BracketedSearch.inline_solve ((fun x i => 100 * x i) : (Fin 1 → ℚ) → Fin 1 → ℚ)
        (fun _ => 1 / 10) 4 (fun _ => -1) (fun _ => 2)).2.1 = false
    ∧ (BracketedSearch.inline_solve ((fun x i => 100 * x i) : (Fin 1 → ℚ) → Fin 1 → ℚ)
        (fun _ => 1 / 10) 4 (fun _ => -1) (fun _ => 2)).2.2 = 5 := by
  refine ⟨by norm_num, by norm_num, ⟨by norm_num, by norm_num, by norm_num⟩,
    by norm_num, by norm_num, ?_, ?_⟩
  · norm_num [BracketedSearch.inline_solve, BracketedSearch.solveAux, BracketedSearch.step,
      BracketedSearch.x_mid, check_run_time_tolerance, Fin.forall_fin_one, abs_le]
  · norm_num [BracketedSearch.inline_solve, BracketedSearch.solveAux, BracketedSearch.step,
      BracketedSearch.x_mid, check_run_time_tolerance, Fin.forall_fin_one, abs_le]

/-- C4 amended: each outer iteration of the bracketed search evaluates the
residual once, at the elementwise midpoint of all states' brackets, and per
element replaces exactly one bracket end by the midpoint — the lower end when
the midpoint residual's sign matches the recorded lower-bound sign, the upper
end otherwise — so the bracket width after `k` iterations equals `(hi-lo)/2^k`
and falls within any threshold `w` once `(hi-lo) ≤ 2^k·w` (in particular within
`ceil(log2((hi-lo)/w))` iterations).  The original claim's stronger statement,
that the residual-magnitude tolerance itself is met within
`ceil(log2((hi-lo)/tolerance))` iterations, is refuted by
`bracketed_search_bound_fails`. -/
theorem bracketed_search_bisection :
    ∀ (n : ℕ) (residual : (Fin n → ℚ) → Fin n → ℚ) (r_sign : Fin n → Bool)
      (s : BracketState n),
      ((BracketedSearch.step residual r_sign s).2 = residual (BracketedSearch.x_mid s))
      ∧ (∀ i : Fin n,
          ((decide (residual (BracketedSearch.x_mid s) i < 0) == r_sign i) = true →
            (BracketedSearch.step residual r_sign s).1.x_lower i = BracketedSearch.x_mid s i
            ∧ (BracketedSearch.step residual r_sign s).1.x_upper i = s.x_upper i)
          ∧ ((decide (residual (BracketedSearch.x_mid s) i < 0) == r_sign i) = false →
            (BracketedSearch.step residual r_sign s).1.x_lower i = s.x_lower i
            ∧ (BracketedSearch.step residual r_sign s).1.x_upper i = BracketedSearch.x_mid s i))
      ∧ (∀ (k : ℕ) (i : Fin n),
          (BracketedSearch.stepN residual r_sign k s).x_upper i
            - (BracketedSearch.stepN residual r_sign k s).x_lower i
            = (s.x_upper i - s.x_lower i) / 2 ^ k)
      ∧ (∀ (k : ℕ) (i : Fin n) (w : ℚ),
          s.x_upper i - s.x_lower i ≤ 2 ^ k * w →
          (BracketedSearch.stepN residual r_sign k s).x_upper i
            - (BracketedSearch.stepN residual r_sign k s).x_lower i ≤ w) := by
  intro n residual r_sign s
  refine ⟨rfl, fun i => ⟨fun h => ?_, fun h => ?_⟩, fun k i => stepN_width residual r_sign k s i,
    fun k i w hw => ?_⟩
  · rw [step_lower, step_upper, if_pos h, if_pos h]; exact ⟨rfl, rfl⟩
  · rw [step_lower, step_upper, if_neg (by simp [h]), if_neg (by simp [h])]; exact ⟨rfl, rfl⟩
  · rw [stepN_width residual r_sign k s i]
    rw [div_le_iff₀ (by positivity : (0 : ℚ) < 2 ^ k)]
    calc s.x_upper i - s.x_lower i ≤ 2 ^ k * w := hw
      _ = w * 2 ^ k := mul_comm _ _

/-- C4 witness for the amended theorem: on the single-state bracket `[-1, 2]`
(width 3) with `w = 3/4` and `k = 2` iterations, `3 ≤ 2²·(3/4)` holds and the
width after two iterations is within `3/4`. -/
theorem bracketed_search_bisection_w :
    (BracketedSearch.stepN ((fun x i => 100 * x i) : (Fin 1 → ℚ) → Fin 1 → ℚ) (fun _ => true) 2
        ⟨fun _ => -1, fun _ => 2⟩).x_upper 0
      - (BracketedSearch.stepN ((fun x i => 100 * x i) : (Fin 1 → ℚ) → Fin 1 → ℚ) (fun _ => true) 2
        ⟨fun _ => -1, fun _ => 2⟩).x_lower 0 ≤ 3 / 4 :=
  (bracketed_search_bisection 1 (fun x i => 100 * x i) (fun _ => true)
    ⟨fun _ => -1, fun _ => 2⟩).2.2.2 2 0 (3 / 4) (by norm_num)

/-! ### C5: Gauss–Seidel state sweep -/

theorem visit_state_eq_spec {n : ℕ} (R : (Fin n → ℚ) → Fin n → ℚ)
    (state_update : Fin n → Option ((Fin n → ℚ) → ℚ)) (x : Fin n → ℚ) (k : Fin n) :
    GaussSeidel.visit_state R state_update x k = GaussSeidel.spec_visit R state_update x k := by
  funext j
  unfold GaussSeidel.visit_state GaussSeidel.spec_visit
  cases hU : state_update k <;> simp [hU, Function.update_apply]

/-- C5: one outer Gauss–Seidel iteration visits the states in declaration
order (`0, 1, …, n-1`); each visit recomputes all residuals against the
current (partially updated) state values and then overwrites only that state
with `state − residual`, or with the declared explicit update when present.
On two states with no explicit updates this gives exactly the textbook
Gauss–Seidel sweep: the second state's update already sees the first state's
new value. -/
theorem gauss_seidel_declaration_order_sweep :
    (∀ (n : ℕ) (R : (Fin n → ℚ) → Fin n → ℚ)
        (state_update : Fin n → Option ((Fin n → ℚ) → ℚ)) (x : Fin n → ℚ),
        GaussSeidel.inline_update_states R state_update x
          = (List.finRange n).foldl (GaussSeidel.spec_visit R state_update) x)
    ∧ (∀ (R : (Fin 2 → ℚ) → Fin 2 → ℚ) (x : Fin 2 → ℚ),
        GaussSeidel.inline_update_states R (fun _ => none) x 0 = x 0 - R x 0
        ∧ GaussSeidel.inline_update_states R (fun _ => none) x 1
          = x 1 - R (Function.update x 0 (x 0 - R x 0)) 1) := by
  have key : ∀ (n : ℕ) (R : (Fin n → ℚ) → Fin n → ℚ)
      (su : Fin n → Option ((Fin n → ℚ) → ℚ)) (x : Fin n → ℚ),
      GaussSeidel.inline_update_states R su x
        = (List.finRange n).foldl (GaussSeidel.spec_visit R su) x := by
    intro n R su x
    unfold GaussSeidel.inline_update_states
    congr 1
    funext y k
    exact visit_state_eq_spec R su y k
  refine ⟨key, fun R x => ?_⟩
  have h2 : List.finRange 2 = [0, 1] := by decide
  constructor
  · simp [GaussSeidel.inline_update_states, h2, GaussSeidel.visit_state,
      Function.update_apply, (by decide : (0 : Fin 2) ≠ 1)]
  · simp [GaussSeidel.inline_update_states, h2, GaussSeidel.visit_state,
      Function.update_apply, (by decide : (0 : Fin 2) ≠ 1)]

/-! ### C6: exceeding max iterations is non-fatal -/

theorem solveAux_exhausts {n : ℕ} (residual : (Fin n → ℚ) → Fin n → ℚ)
    (r_sign : Fin n → Bool) (tol : Fin n → ℚ)
    (h : ∀ x : Fin n → ℚ, check_run_time_tolerance (residual x) tol = false) :
    ∀ (fuel iter : ℕ) (s : BracketState n),
      BracketedSearch.solveAux residual r_sign tol fuel iter s
        = (BracketedSearch.stepN residual r_sign (fuel + 1) s, false, iter + fuel + 1) := by
  intro fuel
  induction fuel with
  | zero =>
      intro iter s
      have hc : check_run_time_tolerance (BracketedSearch.step residual r_sign s).2 tol
          = false := by rw [step_snd]; exact h _
      simp [BracketedSearch.solveAux, hc, BracketedSearch.stepN]
  | succ fuel ih =>
      intro iter s
      have hc : check_run_time_tolerance (BracketedSearch.step residual r_sign s).2 tol
          = false := by rw [step_snd]; exact h _
      have hrec : BracketedSearch.stepN residual r_sign (fuel + 1 + 1) s
          = BracketedSearch.stepN residual r_sign (fuel + 1)
              (BracketedSearch.step residual r_sign s).1 := rfl
      simp only [BracketedSearch.solveAux, hc, Bool.false_eq_true, if_false]
      rw [ih (iter + 1) (BracketedSearch.step residual r_sign s).1, hrec]
      simp only [Prod.mk.injEq, true_and]
      omega

/-- C6: when the residual tolerance is never met, the bracketed solve exits
its loop normally after `max_iter + 1` iterations: it returns the last
computed bracket state together with `converged = false` (the status is only
reported, never raised) and execution continues. -/
theorem implicit_solve_max_iter_nonfatal :
    ∀ (n : ℕ) (residual : (Fin n → ℚ) → Fin n → ℚ) (tol : Fin n → ℚ)
      (max_iter : ℕ) (x_lower x_upper : Fin n → ℚ),
      (∀ x : Fin n → ℚ, check_run_time_tolerance (residual x) tol = false) →
      BracketedSearch.inline_solve residual tol max_iter x_lower x_upper
        = (BracketedSearch.stepN residual (fun i => decide (residual x_lower i < 0))
            (max_iter + 1) ⟨x_lower, x_upper⟩, false, max_iter + 1) := by
  intro n residual tol max_iter lo hi h
  unfold BracketedSearch.inline_solve
  rw [solveAux_exhausts residual (fun i => decide (residual lo i < 0)) tol h max_iter 0
    ⟨lo, hi⟩]
  simp

/-- C6 witness: the constant residual `1` can never meet tolerance `1/2`; with
`max_iter = 0` the solve returns non-converged after one iteration without
failing. -/
theorem implicit_solve_max_iter_nonfatal_w :
    (BracketedSearch.inline_solve (fun (_ : Fin 1 → ℚ) (_ : Fin 1) => (1 : ℚ))
      (fun _ => 1 / 2) 0 (fun _ => 0) (fun _ => 1)).2.1 = false
    ∧ (BracketedSearch.inline_solve (fun (_ : Fin 1 → ℚ) (_ : Fin 1) => (1 : ℚ))
      (fun _ => 1 / 2) 0 (fun _ => 0) (fun _ => 1)).2.2 = 0 + 1 := by
  have h := implicit_solve_max_iter_nonfatal 1 (fun _ _ => (1 : ℚ)) (fun _ => 1 / 2) 0
    (fun _ => 0) (fun _ => 1)
    (fun x => by norm_num [check_run_time_tolerance, Fin.forall_fin_one])
  rw [h]
  exact ⟨rfl, rfl⟩

/-! ### C10: variable-index get -/

theorem elemOffset_le :
    ∀ (idx s : List ℕ),
      (idx.zip s).all (fun p => decide (p.1 < p.2)) = true →
      idx.length ≤ s.length →
      elemOffset s idx + (s.drop idx.length).prod ≤ s.prod := by
  intro idx
  induction idx with
  | nil => intro s _ _; simp [elemOffset]
  | cons i is ih =>
      intro s hall hlen
      cases s with
      | nil => simp at hlen
      | cons d ds =>
          simp only [List.zip_cons_cons, List.all_cons, Bool.and_eq_true,
            decide_eq_true_eq] at hall
          obtain ⟨hid, hrest⟩ := hall
          have hlen2 : is.length ≤ ds.length := by simpa using hlen
          have ih2 := ih ds hrest hlen2
          simp only [elemOffset, List.drop_succ_cons, List.prod_cons, List.length_cons]
          calc i * ds.prod + elemOffset ds is + (ds.drop is.length).prod
              = i * ds.prod + (elemOffset ds is + (ds.drop is.length).prod) := by ring
            _ ≤ i * ds.prod + ds.prod := Nat.add_le_add_left ih2 _
            _ = (i + 1) * ds.prod := by ring
            _ ≤ d * ds.prod := Nat.mul_le_mul_right _ hid

/-- C10: for a variable-index get, the output shape is the numpy-indexing
shape of an array of `x`'s shape, with the empty (scalar) shape promoted to
`(1,)`; the output data is exactly the selected values of `x` (reshape of
row-major data changes no value); the result is never zero-rank; and for
in-bounds indices on a well-formed array the output is itself well-formed
(its data length equals the product of its shape). -/
theorem get_index_contract :
    ∀ (x : NDArray) (sl : VarIndex),
      x.data.length = x.shape.prod →
      VarIndex.validB sl x.shape = true →
      (get_index x sl).shape
          = (if npIndexShape x.shape sl = [] then [1] else npIndexShape x.shape sl)
      ∧ (get_index x sl).data = npIndexData x sl
      ∧ (get_index x sl).shape ≠ []
      ∧ (get_index x sl).data.length = (get_index x sl).shape.prod := by
  intro x sl hwf hvalid
  refine ⟨rfl, rfl, ?_, ?_⟩
  · unfold get_index
    by_cases h : npIndexShape x.shape sl = [] <;> simp [h]
  · cases sl with
    | scalars idx =>
        simp only [VarIndex.validB, Bool.and_eq_true, decide_eq_true_eq] at hvalid
        obtain ⟨hlen, hall⟩ := hvalid
        have hb := elemOffset_le idx x.shape hall hlen
        have htake : ((x.data.drop (elemOffset x.shape idx)).take
            ((x.shape.drop idx.length).prod)).length = (x.shape.drop idx.length).prod := by
          rw [List.length_take, List.length_drop, hwf]
          exact min_eq_left (Nat.le_sub_of_add_le (by omega))
        simp only [get_index, npIndexData, npIndexShape]
        rw [htake]
        by_cases hdrop : x.shape.drop idx.length = [] <;> simp [hdrop]
    | fancy rows =>
        simp only [VarIndex.validB, Bool.and_eq_true, decide_eq_true_eq] at hvalid
        obtain ⟨hne, hall⟩ := hvalid
        cases hs : x.shape with
        | nil => exact absurd hs hne
        | cons d ds =>
            have hall2 : ∀ r ∈ rows, r < d := by
              intro r hr
              have := List.all_eq_true.mp hall r hr
              simpa [hs] using of_decide_eq_true this
            have hlen : ∀ r ∈ rows,
                ((x.data.drop (r * (x.shape.drop 1).prod)).take
                  ((x.shape.drop 1).prod)).length = (x.shape.drop 1).prod := by
              intro r hr
              rw [List.length_take, List.length_drop, hwf, hs]
              simp only [List.drop_succ_cons, List.drop_zero, List.prod_cons]
              refine min_eq_left (Nat.le_sub_of_add_le ?_)
              have : (r + 1) * ds.prod ≤ d * ds.prod :=
                Nat.mul_le_mul_right _ (hall2 r hr)
              calc ds.prod + r * ds.prod = (r + 1) * ds.prod := by ring
                _ ≤ d * ds.prod := this
            unfold get_index npIndexData npIndexShape
            have hshape : (rows.length :: x.shape.drop 1) ≠ [] := by simp
            simp only [hshape, if_neg]
            rw [List.length_flatten, List.map_map]
            have hmap : (rows.map fun r =>
                ((x.data.drop (r * (x.shape.drop 1).prod)).take
                  ((x.shape.drop 1).prod)).length)
                = rows.map fun _ => (x.shape.drop 1).prod :=
              List.map_congr_left hlen
            calc (rows.map (List.length ∘ fun r =>
                  (x.data.drop (r * (x.shape.drop 1).prod)).take
                    ((x.shape.drop 1).prod))).sum
                = (rows.map fun _ => (x.shape.drop 1).prod).sum := by
                  rw [show (List.length ∘ fun r =>
                    (x.data.drop (r * (x.shape.drop 1).prod)).take
                      ((x.shape.drop 1).prod)) = fun r =>
                    ((x.data.drop (r * (x.shape.drop 1).prod)).take
                      ((x.shape.drop 1).prod)).length from rfl, hmap]
              _ = rows.length * (x.shape.drop 1).prod := by
                  rw [List.map_const', List.sum_replicate, smul_eq_mul]
              _ = (rows.length :: x.shape.drop 1).prod := by simp

/-- C10 witness: the 2×3 array `[[0,1,2],[3,4,5]]` indexed with the scalar
variable indices `(1, 2)`: the numpy shape `()` is promoted to `(1,)` and the
value is `[5]`. -/
theorem get_index_contract_w :
    (get_index ⟨[2, 3], [0, 1, 2, 3, 4, 5]⟩ (VarIndex.scalars [1, 2])).shape
        = (if npIndexShape [2, 3] (VarIndex.scalars [1, 2]) = [] then [1]
           else npIndexShape [2, 3] (VarIndex.scalars [1, 2]))
    ∧ (get_index ⟨[2, 3], [0, 1, 2, 3, 4, 5]⟩ (VarIndex.scalars [1, 2])).data
        = npIndexData ⟨[2, 3], [0, 1, 2, 3, 4, 5]⟩ (VarIndex.scalars [1, 2])
    ∧ (get_index ⟨[2, 3], [0, 1, 2, 3, 4, 5]⟩ (VarIndex.scalars [1, 2])).shape ≠ []
    ∧ (get_index ⟨[2, 3], [0, 1, 2, 3, 4, 5]⟩ (VarIndex.scalars [1, 2])).data.length
        = (get_index ⟨[2, 3], [0, 1, 2, 3, 4, 5]⟩ (VarIndex.scalars [1, 2])).shape.prod :=
  get_index_contract ⟨[2, 3], [0, 1, 2, 3, 4, 5]⟩ (VarIndex.scalars [1, 2]) (by decide)
    (by decide)
